import Mathlib

/-!
Shallow embedding of the realtime chat/stream broker (the admin/user
variant of the server: global maps `clients`, `adminClient`, `userQueue`,
`activeChats`, `chatHistory`, `messageQueues`, the `sendToClient`
priority dispatcher, the 50ms `processMessageQueues` tick, and the
message handlers `handleJoin`, `handleSelectUser`, `handleChatMessage`,
`handleEndChat`, `handleStartVideoStream`, `handleStopVideoStream`,
`handleVideoFrame`, `handleDisconnect`).

JS `Map`s are modelled as insertion-ordered association lists: `set` on
an existing key replaces the value in place, `set` on a fresh key
appends, `forEach` iterates in insertion order.  Client ids (strings
produced by `generateId` in the source) are modelled as `Nat`, supplied
as an argument to the join operation; they are non-empty strings in the
source, hence always truthy, so a JS truthiness test on an id becomes
`Option.isSome` on an optional id.  A socket is represented by the
Boolean `wsOpen` (`ws.readyState === WebSocket.OPEN`); `ws.send` and
`ws.close` become explicit transport effects.
-/

namespace Broker

/-- One entry of the `clients` map: `{ id, ws, username, type }`.
`wsOpen` models `ws.readyState === WebSocket.OPEN`. -/
structure Client where
  id : Nat
  username : String
  type : String
  wsOpen : Bool
deriving Repr, DecidableEq

/-- One element of the roster that `updateUserList` builds for the admin:
`{ id, username, type, inChat }`. -/
structure UserEntry where
  id : Nat
  username : String
  type : String
  inChat : Bool
deriving Repr, DecidableEq

/-- One chat-history record: `{ from, text, timestamp }` (`from` is the
sender display name; renamed `sender` because `from` is reserved). -/
structure HistEntry where
  sender : String
  text : String
  timestamp : String
deriving Repr, DecidableEq

/-- Outbound messages the server builds (the JSON objects passed to
`ws.send` / `sendToClient`). -/
inductive Msg where
  | welcome (userId : Nat)
  | errMsg (message : String)
  | queuePosition (position : Nat)
  | userList (users : List UserEntry)
  | chatStarted (withId : Nat) (withUsername : String) (withType : String)
      (messages : List HistEntry)
  | chatMsg (sender : String) (text : String) (timestamp : String)
  | chatEnded (queuePos : Option Nat)
  | startVideoStream
  | stopVideoStream
  | videoFrame (frame : String) (sender : Nat)
deriving Repr, DecidableEq

/-- `message.priority === true`: only the chat message built in
`handleChatMessage` carries `priority: true`; every other outbound
object either has no `priority` field or `priority: false`. -/
def Msg.priority : Msg → Bool
  | Msg.chatMsg _ _ _ => true
  | _ => false

/-- Transport-level side effects: a `ws.send` to the socket of a given
client id, or a `ws.close` on it. -/
inductive Eff where
  | send (wsId : Nat) (m : Msg)
  | close (wsId : Nat)
deriving Repr, DecidableEq

/-- `Map.get`: value of the first (unique) entry with the given key. -/
def mget {α β : Type} [DecidableEq α] (m : List (α × β)) (k : α) : Option β :=
  match m with
  | [] => none
  | (k', v) :: t => if k' = k then some v else mget t k

/-- `Map.set`: replace in place if the key is present, else append. -/
def mset {α β : Type} [DecidableEq α] (m : List (α × β)) (k : α) (v : β) :
    List (α × β) :=
  match m with
  | [] => [(k, v)]
  | (k', v') :: t => if k' = k then (k, v) :: t else (k', v') :: mset t k v

/-- `Map.delete`: remove the entry with the given key. -/
def mdel {α β : Type} [DecidableEq α] (m : List (α × β)) (k : α) :
    List (α × β) :=
  match m with
  | [] => []
  | (k', v') :: t => if k' = k then t else (k', v') :: mdel t k

/-- The broker's global mutable state. -/
structure ServerState where
  clients : List (Nat × Client)
  adminClient : Option Client
  userQueue : List Nat
  activeChats : List (Nat × Nat)
  chatHistory : List (String × List HistEntry)
  messageQueues : List (Nat × List Msg)
deriving Repr, DecidableEq

/-- State at process start: every map empty, no admin. -/
def initState : ServerState :=
  { clients := [], adminClient := none, userQueue := [], activeChats := [],
    chatHistory := [], messageQueues := [] }

/-- `sendToClient(clientId, message)`: priority messages go straight to
the transport; low-priority messages replace the (capacity-1) pending
queue entry; absent or non-open clients get nothing at all. -/
def sendToClient (st : ServerState) (clientId : Nat) (m : Msg) :
    ServerState × List Eff :=
  match mget st.clients clientId with
  | none => (st, [])
  | some c =>
    if c.wsOpen then
      if m.priority then
        (st, [Eff.send clientId m])
      else
        -- queue = messageQueues.get(clientId) (created empty if absent);
        -- if (queue.length >= 1) queue.shift(); queue.push(message)
        let q := (mget st.messageQueues clientId).getD []
        let q := (if q.length ≥ 1 then q.tail else q) ++ [m]
        ({ st with messageQueues := mset st.messageQueues clientId q }, [])
    else (st, [])

/-- Effect of one tick on one `messageQueues` entry: if the client is
present with an open socket and the queue is non-empty, `shift` the
first message and send it. -/
def tickEntry (st : ServerState) (e : Nat × List Msg) :
    (Nat × List Msg) × List Eff :=
  match mget st.clients e.1 with
  | none => (e, [])
  | some c =>
    if c.wsOpen then
      match e.2 with
      | [] => (e, [])
      | m :: rest => ((e.1, rest), [Eff.send e.1 m])
    else (e, [])

/-- `processMessageQueues()`: the 50ms scheduler tick; at most one
pending message per connection is flushed, in map-insertion order. -/
def processMessageQueues (st : ServerState) : ServerState × List Eff :=
  ({ st with messageQueues := st.messageQueues.map (fun e => (tickEntry st e).1) },
   (st.messageQueues.map (fun e => (tickEntry st e).2)).flatten)

/-- `updateUserList()`: push the roster of `type === 'user'` clients
(with their `inChat` status) to the admin, if one is registered. -/
def updateUserList (st : ServerState) : ServerState × List Eff :=
  match st.adminClient with
  | none => (st, [])
  | some a =>
    let userList := (st.clients.filter (fun p => p.2.type == "user")).map
      (fun p => UserEntry.mk p.2.id p.2.username p.2.type
        ((mget st.activeChats p.2.id).isSome))
    sendToClient st a.id (Msg.userList userList)

/-- `updateQueue()`: push `position = index + 1` to every queued user. -/
def updateQueue (st : ServerState) : ServerState × List Eff :=
  st.userQueue.enum.foldl
    (fun (p : ServerState × List Eff) (e : Nat × Nat) =>
      let r := sendToClient p.1 e.2 (Msg.queuePosition (e.1 + 1))
      (r.1, p.2 ++ r.2))
    (st, [])

/-- `handleJoin(ws, data)`: register the fresh client, send `welcome`,
then either claim/deny the admin slot or enqueue the user (or report
queue position 0 when no admin exists).  `newId` is the value of
`generateId()`.  After `ws.close()` the socket's readyState leaves
OPEN, hence `wsOpen := false` on the rejected-admin branch. -/
def handleJoin (st : ServerState) (newId : Nat) (username userType : String) :
    ServerState × List Eff :=
  let client : Client := { id := newId, username := username, type := userType, wsOpen := true }
  let st := { st with clients := mset st.clients newId client }
  let e0 := [Eff.send newId (Msg.welcome newId)]
  if userType == "admin" then
    if st.adminClient.isSome then
      let st := { st with clients := mset st.clients newId { client with wsOpen := false } }
      (st, e0 ++ [Eff.send newId (Msg.errMsg "An admin is already connected"),
                  Eff.close newId])
    else
      let st := { st with adminClient := some client }
      let r := updateUserList st
      (r.1, e0 ++ r.2)
  else
    if st.adminClient.isSome then
      let st := { st with userQueue := st.userQueue ++ [newId] }
      let r1 := updateQueue st
      let r2 := updateUserList r1.1
      (r2.1, e0 ++ r1.2 ++ r2.2)
    else
      (st, e0 ++ [Eff.send newId (Msg.queuePosition 0)])

/-- The pairing key template `${adminId}-${userId}`. -/
def chatKey (adminId userId : Nat) : String :=
  toString adminId ++ "-" ++ toString userId

/-- `clients.get(clientId)?.type === 'admin'`. -/
def senderIsAdmin (st : ServerState) (senderId : Nat) : Bool :=
  match mget st.clients senderId with
  | some c => c.type == "admin"
  | none => false

/-- `handleSelectUser(data)`: admin-only; dequeue the chosen user,
record the symmetric `activeChats` entries, and send `chatStarted`
with the stored history to both sides. -/
def handleSelectUser (st : ServerState) (senderId userId : Nat) :
    ServerState × List Eff :=
  match st.adminClient with
  | none => (st, [])
  | some a =>
    if senderIsAdmin st senderId then
      match mget st.clients userId with
      | none => sendToClient st senderId (Msg.errMsg "User not found")
      | some user =>
        if user.type == "user" then
          let st := { st with userQueue := st.userQueue.erase userId }
          let st := { st with
            activeChats := mset (mset st.activeChats userId a.id) a.id userId }
          let messages := (mget st.chatHistory (chatKey a.id userId)).getD []
          let r1 := sendToClient st a.id
            (Msg.chatStarted userId user.username user.type messages)
          let r2 := sendToClient r1.1 userId
            (Msg.chatStarted a.id a.username a.type messages)
          let r3 := updateQueue r2.1
          let r4 := updateUserList r3.1
          (r4.1, r1.2 ++ r2.2 ++ r3.2 ++ r4.2)
        else
          sendToClient st senderId (Msg.errMsg "User not found")
    else (st, [])

/-- `handleChatMessage(data)`: append `{from, text, timestamp}` to the
history under the admin-first key and forward the text at high
priority.  The wall-clock timestamp is an external input. -/
def handleChatMessage (st : ServerState) (senderId toId : Nat)
    (text timestamp : String) : ServerState × List Eff :=
  match mget st.clients senderId with
  | none => (st, [])
  | some fromClient =>
    match mget st.clients toId with
    | none => (st, [])
    | some _ =>
      let message : HistEntry :=
        { sender := fromClient.username, text := text, timestamp := timestamp }
      let key := if fromClient.type == "admin" then chatKey senderId toId
                 else chatKey toId senderId
      let hist := (mget st.chatHistory key).getD []
      let st := { st with chatHistory := mset st.chatHistory key (hist ++ [message]) }
      sendToClient st toId (Msg.chatMsg fromClient.username text timestamp)

/-- `handleEndChat(data)`: drop both `activeChats` entries; a vacated
user is pushed back on the queue and told its new position.  For an
admin sender the partner is whatever `data.userId` names. -/
def handleEndChat (st : ServerState) (senderId : Nat) (dataUserId : Option Nat) :
    ServerState × List Eff :=
  match mget st.clients senderId with
  | none => (st, [])
  | some fromClient =>
    let otherUserId := if fromClient.type == "admin" then dataUserId
                       else mget st.activeChats senderId
    let st := { st with activeChats := mdel st.activeChats senderId }
    let st := { st with activeChats :=
      match otherUserId with
      | some o => mdel st.activeChats o
      | none => st.activeChats }
    match otherUserId with
    | none =>
      let r1 := updateQueue st
      let r2 := updateUserList r1.1
      (r2.1, r1.2 ++ r2.2)
    | some oid =>
      match mget st.clients oid with
      | none =>
        let r1 := updateQueue st
        let r2 := updateUserList r1.1
        (r2.1, r1.2 ++ r2.2)
      | some otherClient =>
        let r0 := sendToClient st oid Msg.stopVideoStream
        if otherClient.type == "user" then
          let st := { r0.1 with userQueue := r0.1.userQueue ++ [oid] }
          let r1 := sendToClient st oid (Msg.chatEnded (some st.userQueue.length))
          let r2 := updateQueue r1.1
          let r3 := updateUserList r2.1
          (r3.1, r0.2 ++ r1.2 ++ r2.2 ++ r3.2)
        else
          let r1 := sendToClient r0.1 oid (Msg.chatEnded none)
          let r2 := updateQueue r1.1
          let r3 := updateUserList r2.1
          (r3.1, r0.2 ++ r1.2 ++ r2.2 ++ r3.2)

/-- `handleStartVideoStream(data)`: admin-only request to a user. -/
def handleStartVideoStream (st : ServerState) (senderId userId : Nat) :
    ServerState × List Eff :=
  if senderIsAdmin st senderId then
    sendToClient st userId Msg.startVideoStream
  else (st, [])

/-- `handleStopVideoStream(data)`: admin-only request to a user. -/
def handleStopVideoStream (st : ServerState) (senderId userId : Nat) :
    ServerState × List Eff :=
  if senderIsAdmin st senderId then
    sendToClient st userId Msg.stopVideoStream
  else (st, [])

/-- `handleVideoFrame(data)`: a user forwards a frame at low priority
to a registered target. -/
def handleVideoFrame (st : ServerState) (senderId toId : Nat) (frame : String) :
    ServerState × List Eff :=
  match mget st.clients senderId with
  | none => (st, [])
  | some fromClient =>
    if fromClient.type == "user" then
      if (mget st.clients toId).isSome then
        sendToClient st toId (Msg.videoFrame frame senderId)
      else (st, [])
    else (st, [])

/-- `handleDisconnect(clientId)`: drop the pending queue; an admin
disconnect tears down every chat, empties the queue and resets every
user's queue position to 0; a user disconnect leaves the queue and its
pairing; finally the registry entry is removed. -/
def handleDisconnect (st : ServerState) (clientId : Nat) :
    ServerState × List Eff :=
  match mget st.clients clientId with
  | none => (st, [])
  | some client =>
    let st := { st with messageQueues := mdel st.messageQueues clientId }
    let r :=
      if client.type == "admin" then
        let st := { st with adminClient := none }
        let r1 := st.activeChats.foldl
          (fun (p : ServerState × List Eff) (e : Nat × Nat) =>
            if e.1 ≠ clientId then
              let s1 := sendToClient p.1 e.1 Msg.stopVideoStream
              let s2 := sendToClient s1.1 e.1 (Msg.chatEnded none)
              (s2.1, p.2 ++ s1.2 ++ s2.2)
            else p)
          (st, [])
        let st := { r1.1 with activeChats := [], userQueue := [] }
        st.clients.foldl
          (fun (p : ServerState × List Eff) (e : Nat × Client) =>
            if e.2.type == "user" && e.1 ≠ clientId then
              let s1 := sendToClient p.1 e.1 (Msg.queuePosition 0)
              (s1.1, p.2 ++ s1.2)
            else p)
          (st, r1.2)
      else
        let r1 :=
          if st.userQueue.contains clientId then
            let st := { st with userQueue := st.userQueue.erase clientId }
            updateQueue st
          else (st, [])
        let r2 :=
          match mget r1.1.activeChats clientId with
          | some partnerId =>
            let st := { r1.1 with
              activeChats := mdel (mdel r1.1.activeChats clientId) partnerId }
            let s1 := sendToClient st partnerId (Msg.chatEnded none)
            (s1.1, r1.2 ++ s1.2)
          | none => r1
        let r3 := updateUserList r2.1
        (r3.1, r2.2 ++ r3.2)
    ({ r.1 with clients := mdel r.1.clients clientId }, r.2)

/-- One inbound event at the broker boundary: a parsed client message
(with the sender's connection), a socket close, or a scheduler tick. -/
inductive Op where
  | join (newId : Nat) (username userType : String)
  | selectUser (senderId userId : Nat)
  | message (senderId toId : Nat) (text timestamp : String)
  | endChat (senderId : Nat) (dataUserId : Option Nat)
  | startVideo (senderId userId : Nat)
  | stopVideo (senderId userId : Nat)
  | videoFrame (senderId toId : Nat) (frame : String)
  | disconnect (clientId : Nat)
  | tick
deriving Repr, DecidableEq

/-- Dispatch of one event to its handler (the `switch (data.type)`
plus the `close` listener and the 50ms interval). -/
def execOp (st : ServerState) : Op → ServerState × List Eff
  | Op.join newId username userType => handleJoin st newId username userType
  | Op.selectUser senderId userId => handleSelectUser st senderId userId
  | Op.message senderId toId text timestamp =>
      handleChatMessage st senderId toId text timestamp
  | Op.endChat senderId dataUserId => handleEndChat st senderId dataUserId
  | Op.startVideo senderId userId => handleStartVideoStream st senderId userId
  | Op.stopVideo senderId userId => handleStopVideoStream st senderId userId
  | Op.videoFrame senderId toId frame => handleVideoFrame st senderId toId frame
  | Op.disconnect clientId => handleDisconnect st clientId
  | Op.tick => processMessageQueues st

/-- Run a sequence of events, accumulating the transport trace. -/
def execOps (st : ServerState) (ops : List Op) : ServerState × List Eff :=
  ops.foldl (fun p op => let r := execOp p.1 op; (r.1, p.2 ++ r.2)) (st, [])

/-- Does a transport effect deliver a message to the given client? -/
def sendsTo (cid : Nat) : Eff → Bool
  | Eff.send c _ => c == cid
  | _ => false

/-- The active-pairing relation is symmetric (claim C1's first half). -/
def pairingSymmetric (st : ServerState) : Prop :=
  ∀ a b : Nat, mget st.activeChats a = some b → mget st.activeChats b = some a

/-- Every per-connection low-priority pending queue holds at most one
message (claim C2's invariant), as an executable check. -/
def lowPriorityLaneBounded (st : ServerState) : Bool :=
  st.messageQueues.all (fun p => decide (p.2.length ≤ 1))

/-- Propositional form of the lane bound: every pending queue holds at
most one message. -/
def QInv (st : ServerState) : Prop :=
  ∀ p ∈ st.messageQueues, (p.2 : List Msg).length ≤ 1

/-- Claim C1's failing run: the operator pairs with user 2 and then,
without ending that chat, selects user 3. -/
def c1Trace : List Op :=
  [Op.join 1 "op" "admin", Op.join 2 "a" "user", Op.join 3 "b" "user",
   Op.selectUser 1 2, Op.selectUser 1 3]

/-- Claim C2's scenario state: one registered open participant. -/
def c2State : ServerState :=
  { clients := [(10, { id := 10, username := "alice", type := "user", wsOpen := true })],
    adminClient := none, userQueue := [], activeChats := [], chatHistory := [],
    messageQueues := [] }

/-- Claim C2's first frame. -/
def c2Frame1 : Msg := Msg.videoFrame "F1" 7

/-- Claim C2's second frame. -/
def c2Frame2 : Msg := Msg.videoFrame "F2" 7

/-- Claim C4's failing run: the operator ends a chat naming user 2,
which is not paired but already sits in the waiting queue. -/
def c4Trace : List Op :=
  [Op.join 1 "op" "admin", Op.join 2 "p" "user", Op.endChat 1 (some 2)]

/-- Claim C6's failing run: the operator pairs with user 2 while user 3
waits at position 1, a tick flushes the pending slots, then the
operator disconnects and another tick runs. -/
def c6Trace : List Op :=
  [Op.join 1 "op" "admin", Op.join 2 "bee" "user", Op.join 3 "cee" "user",
   Op.selectUser 1 2, Op.tick, Op.disconnect 1, Op.tick]

/-- Claim C7's failing run: user 2 sends one chat line to the operator
(so the history for key 1-2 is non-empty), ticks flush the lanes, then
the operator selects user 2 and a final tick runs. -/
def c7Trace : List Op :=
  [Op.join 1 "op" "admin", Op.join 2 "bob" "user", Op.tick,
   Op.message 2 1 "hi" "t0", Op.tick, Op.selectUser 1 2, Op.tick]

/-- Witness operator client for the role-conflict theorem. -/
def c3WAdmin : Client := { id := 1, username := "op", type := "admin", wsOpen := true }

/-- Witness state for the role-conflict theorem: one registered operator. -/
def c3WState : ServerState :=
  { clients := [(1, c3WAdmin)], adminClient := some c3WAdmin, userQueue := [],
    activeChats := [], chatHistory := [], messageQueues := [] }

/-- Witness state for the unauthorized-select theorem: an operator and a
participant are registered; the participant (id 2) will be the sender. -/
def c8WState : ServerState :=
  { clients := [(1, { id := 1, username := "op", type := "admin", wsOpen := true }),
                (2, { id := 2, username := "eve", type := "user", wsOpen := true })],
    adminClient := some { id := 1, username := "op", type := "admin", wsOpen := true },
    userQueue := [2], activeChats := [], chatHistory := [], messageQueues := [] }

/-- Witness operator client for the double-registration window theorem. -/
def c9WAdmin : Client := { id := 1, username := "root", type := "admin", wsOpen := true }

/-- Witness state for the double-registration window theorem. -/
def c9WState : ServerState :=
  { clients := [(1, c9WAdmin)], adminClient := some c9WAdmin, userQueue := [],
    activeChats := [], chatHistory := [], messageQueues := [] }

/-- Witness state for the dead-transport no-op theorem: client 2 is
registered but its socket is no longer open, and a stale frame is
still sitting in its pending slot. -/
def c10WState : ServerState :=
  { clients := [(2, { id := 2, username := "dan", type := "user", wsOpen := false })],
    adminClient := none, userQueue := [], activeChats := [], chatHistory := [],
    messageQueues := [(2, [Msg.videoFrame "stale" 9])] }

/-- Witness frame for the dead-transport no-op theorem. -/
def c10WMsg : Msg := Msg.videoFrame "late" 9

/-- Witness state for the queue-renumbering theorem: users 20 and 21
are queued in that order, both registered and open; user 20 still has
a stale pending message that the renumbering must replace. -/
def c5WState : ServerState :=
  { clients := [(20, { id := 20, username := "u20", type := "user", wsOpen := true }),
                (21, { id := 21, username := "u21", type := "user", wsOpen := true })],
    adminClient := none, userQueue := [20, 21], activeChats := [], chatHistory := [],
    messageQueues := [(20, [Msg.queuePosition 9])] }

/-- Witness run for the low-priority-lane invariant theorem. -/
def c2WOps : List Op :=
  [Op.join 1 "op" "admin", Op.join 2 "w" "user", Op.videoFrame 2 1 "f", Op.tick]

end Broker

namespace Broker

/-- C1: In every reachable broker state, the active-pairing relation is
symmetric and each connection is in at most one pairing, also after an
operator issues selectUser while already paired.  REFUTED by the code:
after the operator (1) selects user 2 and then user 3 without ending
the first chat, `activeChats` maps 2 to 1 but 1 to 3, so user 2 points
at a partner that no longer points back, and connection 1 is recorded
as the partner of both 2 and 3. -/
theorem selectUser_while_paired_breaks_pairing_symmetry :
    mget (execOps initState c1Trace).1.activeChats 2 = some 1 ∧
    mget (execOps initState c1Trace).1.activeChats 1 = some 3 ∧
    mget (execOps initState c1Trace).1.activeChats 3 = some 1 ∧
    ¬ pairingSymmetric (execOps initState c1Trace).1 := by
  refine ⟨by decide, by decide, by decide, fun h => ?_⟩
  exact absurd (h 2 1 (by decide)) (by decide)

/-- C4: the waiting queue never holds duplicates.  REFUTED by the code:
the operator (1) sends endChat naming user 2, which is already queued
and not paired; `handleEndChat` pushes 2 onto the queue again, so the
queue becomes [2, 2]. -/
theorem endChat_on_queued_user_duplicates_queue :
    (execOps initState c4Trace).1.userQueue = [2, 2] ∧
    ¬ (execOps initState c4Trace).1.userQueue.Nodup := by
  exact ⟨by decide, by decide⟩

/-- C6: on operator disconnect every pairing is removed, the queue is
emptied and every participant is told position 0 — all of which the
code does — but the paired participant is also supposed to receive a
chat-ended notification, and it never does: `chatEnded` is placed in
user 2's depth-1 low-priority slot and then evicted by the
`queuePosition 0` push later in the same handler, before any tick can
flush it.  The full transport trace to user 2 is welcome, chatStarted,
queuePosition 0 — no chatEnded — and nothing remains pending. -/
theorem admin_disconnect_chatEnded_evicted :
    (execOps initState c6Trace).2.filter (sendsTo 2) =
      [Eff.send 2 (Msg.welcome 2),
       Eff.send 2 (Msg.chatStarted 1 "op" "admin" []),
       Eff.send 2 (Msg.queuePosition 0)] ∧
    (execOps initState c6Trace).2.filter (sendsTo 3) =
      [Eff.send 3 (Msg.welcome 3),
       Eff.send 3 (Msg.queuePosition 1),
       Eff.send 3 (Msg.queuePosition 0)] ∧
    (execOps initState c6Trace).1.userQueue = [] ∧
    (execOps initState c6Trace).1.activeChats = [] ∧
    (execOps initState c6Trace).1.adminClient = none ∧
    (execOps initState c6Trace).1.messageQueues = [(2, []), (3, [])] := by
  refine ⟨by decide, by decide, by decide, by decide, by decide, by decide⟩

/-- C7: history is keyed stably and accumulates, and on pairing start
the history must be sent verbatim to both sides.  REFUTED on the
operator side: after user 2 chats "hi" to the operator (history "1-2"
has one entry) and the operator selects user 2, the participant
receives chatStarted carrying the verbatim history, but the operator's
chatStarted is evicted from its depth-1 low-priority slot by the
roster update issued later in the same handler; across the whole run
(ticks included) the operator never receives any chatStarted. -/
theorem select_chatStarted_to_operator_evicted :
    (execOps initState c7Trace).1.chatHistory =
      [("1-2", [{ sender := "bob", text := "hi", timestamp := "t0" }])] ∧
    (execOps initState c7Trace).2.filter (sendsTo 2) =
      [Eff.send 2 (Msg.welcome 2),
       Eff.send 2 (Msg.queuePosition 1),
       Eff.send 2 (Msg.chatStarted 1 "op" "admin"
         [{ sender := "bob", text := "hi", timestamp := "t0" }])] ∧
    (execOps initState c7Trace).2.filter (sendsTo 1) =
      [Eff.send 1 (Msg.welcome 1),
       Eff.send 1 (Msg.userList
         [{ id := 2, username := "bob", type := "user", inChat := false }]),
       Eff.send 1 (Msg.chatMsg "bob" "hi" "t0"),
       Eff.send 1 (Msg.userList
         [{ id := 2, username := "bob", type := "user", inChat := true }])] ∧
    (execOps initState c7Trace).1.messageQueues = [(1, []), (2, [])] := by
  refine ⟨by decide, by decide, by decide, by decide⟩

/-- C3: a join as operator while an operator is already registered
leaves the registered operator unchanged (so at most one connection
ever holds the operator session), surfaces a role-conflict error to
the joining connection, and closes it, in that order after the
welcome. -/
theorem second_admin_join_rejected (st : ServerState) (a : Client)
    (newId : Nat) (name : String) (h : st.adminClient = some a) :
    (handleJoin st newId name "admin").1.adminClient = some a ∧
    (handleJoin st newId name "admin").2 =
      [Eff.send newId (Msg.welcome newId),
       Eff.send newId (Msg.errMsg "An admin is already connected"),
       Eff.close newId] := by
  simp [handleJoin, h]

/-- Witness for C3 at a concrete state with a registered operator. -/
theorem second_admin_join_rejected_witness :
    (handleJoin c3WState 5 "eve" "admin").1.adminClient = some c3WAdmin ∧
    (handleJoin c3WState 5 "eve" "admin").2 =
      [Eff.send 5 (Msg.welcome 5),
       Eff.send 5 (Msg.errMsg "An admin is already connected"),
       Eff.close 5] :=
  second_admin_join_rejected c3WState c3WAdmin 5 "eve" (by decide)

/-- C8: a selectUser from a connection whose registered role is not
admin (or which is not registered at all) produces no outbound message
and leaves the whole broker state unchanged. -/
theorem unauthorized_select_is_noop (st : ServerState) (senderId userId : Nat)
    (h : senderIsAdmin st senderId = false) :
    handleSelectUser st senderId userId = (st, []) := by
  unfold handleSelectUser
  cases hA : st.adminClient with
  | none => rfl
  | some a => simp [h]

/-- Witness for C8: participant 2 tries to select user 2 while an
operator is registered; nothing happens. -/
theorem unauthorized_select_is_noop_witness :
    handleSelectUser c8WState 2 2 = (c8WState, []) :=
  unauthorized_select_is_noop c8WState 2 2 (by decide)

/-- A successful map lookup yields an entry of the list. -/
theorem mget_mem {α β : Type} [DecidableEq α] {m : List (α × β)} {k : α}
    {v : β} (h : mget m k = some v) : (k, v) ∈ m := by
  induction m with
  | nil => simp [mget] at h
  | cons e t ih =>
    obtain ⟨k1, v1⟩ := e
    by_cases hk : k1 = k
    · subst hk
      simp [mget] at h
      simp [h]
    · simp [mget, hk] at h
      exact List.mem_cons_of_mem _ (ih h)

/-- Every entry of `mset m k v` is `(k, v)` or an entry of `m`. -/
theorem mem_mset {α β : Type} [DecidableEq α] {m : List (α × β)} {k : α}
    {v : β} {p : α × β} (h : p ∈ mset m k v) : p = (k, v) ∨ p ∈ m := by
  induction m with
  | nil => simp [mset] at h; simp [h]
  | cons e t ih =>
    obtain ⟨k1, v1⟩ := e
    by_cases hk : k1 = k
    · subst hk
      simp [mset] at h
      rcases h with h | h
      · exact Or.inl (by simp [h])
      · exact Or.inr (List.mem_cons_of_mem _ h)
    · simp [mset, hk] at h
      rcases h with h | h
      · exact Or.inr (by simp [h])
      · rcases ih h with h1 | h1
        · exact Or.inl h1
        · exact Or.inr (List.mem_cons_of_mem _ h1)

/-- Every entry of `mdel m k` is an entry of `m`. -/
theorem mem_mdel {α β : Type} [DecidableEq α] {m : List (α × β)} {k : α}
    {p : α × β} (h : p ∈ mdel m k) : p ∈ m := by
  induction m with
  | nil => simp [mdel] at h
  | cons e t ih =>
    obtain ⟨k1, v1⟩ := e
    by_cases hk : k1 = k
    · simp [mdel, hk] at h
      exact List.mem_cons_of_mem _ h
    · simp [mdel, hk] at h
      rcases h with h | h
      · exact by simp [h]
      · exact List.mem_cons_of_mem _ (ih h)

/-- Looking up the key just set. -/
theorem mget_mset_self {α β : Type} [DecidableEq α] (m : List (α × β))
    (k : α) (v : β) : mget (mset m k v) k = some v := by
  induction m with
  | nil => simp [mset, mget]
  | cons e t ih =>
    obtain ⟨k1, v1⟩ := e
    by_cases hk : k1 = k
    · simp [mset, mget, hk]
    · simp [mset, mget, hk, ih]

/-- Setting one key leaves the other lookups unchanged. -/
theorem mget_mset_ne {α β : Type} [DecidableEq α] (m : List (α × β))
    {k u : α} (v : β) (h : u ≠ k) : mget (mset m k v) u = mget m u := by
  have hk : ¬ k = u := fun hh => h hh.symm
  induction m with
  | nil => simp [mset, mget, hk]
  | cons e t ih =>
    obtain ⟨k1, v1⟩ := e
    by_cases hk1 : k1 = k
    · subst hk1
      simp [mset, mget, hk]
    · simp [mset, mget, hk1, ih]

/-- `sendToClient` never touches the client registry. -/
theorem sendToClient_clients (st : ServerState) (cid : Nat) (m : Msg) :
    (sendToClient st cid m).1.clients = st.clients := by
  unfold sendToClient
  cases mget st.clients cid with
  | none => rfl
  | some c => by_cases hw : c.wsOpen <;> by_cases hp : m.priority <;> simp [hw, hp]

/-- `sendToClient` leaves every other pending slot unchanged. -/
theorem sendToClient_queues_ne (st : ServerState) (cid : Nat) (m : Msg)
    {u : Nat} (h : u ≠ cid) :
    mget (sendToClient st cid m).1.messageQueues u = mget st.messageQueues u := by
  unfold sendToClient
  cases mget st.clients cid with
  | none => rfl
  | some c =>
    by_cases hw : c.wsOpen <;> by_cases hp : m.priority <;>
      simp [hw, hp, mget_mset_ne _ _ h]

/-- The eviction step of the low-priority lane: starting from a bounded
queue, the shift-then-push leaves exactly the new message. -/
theorem lane_push (m : Msg) :
    ∀ q : List Msg, q.length ≤ 1 →
      (if q.length ≥ 1 then q.tail else q) ++ [m] = [m]
  | [], _ => by simp
  | [_], _ => by simp
  | _ :: _ :: _, h => by simp at h

/-- A successful low-priority send replaces the pending slot with the
singleton holding the new message. -/
theorem sendToClient_slot {st : ServerState} {cid : Nat} {m : Msg} {c : Client}
    (hc : mget st.clients cid = some c) (hw : c.wsOpen = true)
    (hp : m.priority = false)
    (hlen : ((mget st.messageQueues cid).getD []).length ≤ 1) :
    mget (sendToClient st cid m).1.messageQueues cid = some [m] := by
  unfold sendToClient
  rw [hc]
  simp [hw, hp, lane_push m _ hlen, mget_mset_self]

/-- The lane bound survives any `sendToClient`. -/
theorem qinv_send {st : ServerState} (cid : Nat) (m : Msg) (h : QInv st) :
    QInv (sendToClient st cid m).1 := by
  unfold sendToClient
  cases hc : mget st.clients cid with
  | none => exact h
  | some c =>
    by_cases hw : c.wsOpen
    · by_cases hp : m.priority
      · simp [hw, hp]; exact h
      · simp only [hw, hp, Bool.false_eq_true, if_false, if_true]
        intro p hpmem
        rcases mem_mset hpmem with rfl | hmem
        · have hlen : ((mget st.messageQueues cid).getD []).length ≤ 1 := by
            cases hq0 : mget st.messageQueues cid with
            | none => simp
            | some q0 => simpa using h (cid, q0) (mget_mem hq0)
          simp [lane_push m _ hlen]
        · exact h p hmem
    · simp [hw]; exact h

/-- The lane bound survives a fold whose every step preserves it. -/
theorem qinv_foldl {α : Type} (f : ServerState × List Eff → α → ServerState × List Eff)
    (hf : ∀ p a, QInv p.1 → QInv (f p a).1) :
    ∀ (l : List α) (p : ServerState × List Eff), QInv p.1 → QInv (l.foldl f p).1 := by
  intro l
  induction l with
  | nil => exact fun p h => h
  | cons a t ih => exact fun p h => ih (f p a) (hf p a h)

/-- The lane bound survives `updateQueue`. -/
theorem qinv_updateQueue {st : ServerState} (h : QInv st) :
    QInv (updateQueue st).1 := by
  unfold updateQueue
  exact qinv_foldl
    (fun (p : ServerState × List Eff) (e : Nat × Nat) =>
      let r := sendToClient p.1 e.2 (Msg.queuePosition (e.1 + 1))
      (r.1, p.2 ++ r.2))
    (fun p e hq => qinv_send _ _ hq) _ (st, []) h

/-- The lane bound survives `updateUserList`. -/
theorem qinv_updateUserList {st : ServerState} (h : QInv st) :
    QInv (updateUserList st).1 := by
  unfold updateUserList
  cases st.adminClient with
  | none => exact h
  | some a => exact qinv_send _ _ h

/-- The lane bound survives one tick entry. -/
theorem tickEntry_len (st : ServerState) (e : Nat × List Msg) :
    (tickEntry st e).1.2.length ≤ e.2.length := by
  unfold tickEntry
  cases mget st.clients e.1 with
  | none => exact le_refl _
  | some c =>
    by_cases hw : c.wsOpen
    · simp only [hw, if_true]
      cases he : e.2 with
      | nil => simp [he]
      | cons m rest => simp [he]
    · simp [hw]

/-- The lane bound survives the scheduler tick. -/
theorem qinv_tick {st : ServerState} (h : QInv st) :
    QInv (processMessageQueues st).1 := by
  intro p hp
  unfold processMessageQueues at hp
  simp only at hp
  rcases List.mem_map.mp hp with ⟨e, he, rfl⟩
  exact le_trans (tickEntry_len st e) (h e he)

/-- The lane bound survives `handleJoin`. -/
theorem qinv_handleJoin {st : ServerState} (newId : Nat)
    (username userType : String) (h : QInv st) :
    QInv (handleJoin st newId username userType).1 := by
  by_cases h1 : userType == "admin" <;> by_cases h2 : st.adminClient.isSome <;>
    simp [handleJoin, h1, h2]
  · exact h
  · exact qinv_updateUserList h
  · exact qinv_updateUserList (qinv_updateQueue h)
  · exact h

/-- The lane bound survives `handleSelectUser`. -/
theorem qinv_handleSelectUser {st : ServerState} (senderId userId : Nat)
    (h : QInv st) : QInv (handleSelectUser st senderId userId).1 := by
  unfold handleSelectUser
  cases st.adminClient with
  | none => exact h
  | some a =>
    by_cases hs : senderIsAdmin st senderId
    · simp only [hs, if_true]
      cases mget st.clients userId with
      | none => exact qinv_send _ _ h
      | some user =>
        by_cases hu : user.type == "user"
        · simp only [hu, if_true]
          exact qinv_updateUserList (qinv_updateQueue (qinv_send _ _ (qinv_send _ _ h)))
        · simp only [hu, Bool.false_eq_true, if_false]
          exact qinv_send _ _ h
    · simp [hs]; exact h

/-- The lane bound survives `handleChatMessage`. -/
theorem qinv_handleChatMessage {st : ServerState} (senderId toId : Nat)
    (text timestamp : String) (h : QInv st) :
    QInv (handleChatMessage st senderId toId text timestamp).1 := by
  unfold handleChatMessage
  cases mget st.clients senderId with
  | none => exact h
  | some fromClient =>
    cases mget st.clients toId with
    | none => exact h
    | some toClient => exact qinv_send _ _ h

/-- The lane bound survives `handleEndChat`. -/
theorem qinv_handleEndChat {st : ServerState} (senderId : Nat)
    (dataUserId : Option Nat) (h : QInv st) :
    QInv (handleEndChat st senderId dataUserId).1 := by
  unfold handleEndChat
  cases hc : mget st.clients senderId with
  | none => exact h
  | some fromClient =>
    dsimp only
    cases hOther : (if (fromClient.type == "admin") = true then dataUserId
        else mget st.activeChats senderId) with
    | none => exact qinv_updateUserList (qinv_updateQueue h)
    | some oid =>
      dsimp only
      cases hm : mget st.clients oid with
      | none => exact qinv_updateUserList (qinv_updateQueue h)
      | some otherClient =>
        by_cases ho : otherClient.type == "user"
        · simp only [ho, if_true]
          exact qinv_updateUserList (qinv_updateQueue (qinv_send _ _ (qinv_send _ _ h)))
        · simp only [ho, Bool.false_eq_true, if_false]
          exact qinv_updateUserList (qinv_updateQueue (qinv_send _ _ (qinv_send _ _ h)))

/-- The lane bound survives `handleStartVideoStream`. -/
theorem qinv_handleStartVideoStream {st : ServerState} (senderId userId : Nat)
    (h : QInv st) : QInv (handleStartVideoStream st senderId userId).1 := by
  unfold handleStartVideoStream
  by_cases hs : senderIsAdmin st senderId <;> simp [hs]
  · exact qinv_send _ _ h
  · exact h

/-- The lane bound survives `handleStopVideoStream`. -/
theorem qinv_handleStopVideoStream {st : ServerState} (senderId userId : Nat)
    (h : QInv st) : QInv (handleStopVideoStream st senderId userId).1 := by
  unfold handleStopVideoStream
  by_cases hs : senderIsAdmin st senderId <;> simp [hs]
  · exact qinv_send _ _ h
  · exact h

/-- The lane bound survives `handleVideoFrame`. -/
theorem qinv_handleVideoFrame {st : ServerState} (senderId toId : Nat)
    (frame : String) (h : QInv st) :
    QInv (handleVideoFrame st senderId toId frame).1 := by
  unfold handleVideoFrame
  cases mget st.clients senderId with
  | none => exact h
  | some fromClient =>
    by_cases ht : fromClient.type == "user"
    · simp only [ht, if_true]
      by_cases hm : (mget st.clients toId).isSome
      · simp only [hm, if_true]
        exact qinv_send _ _ h
      · simp only [hm, Bool.false_eq_true, if_false]
        exact h
    · simp only [ht, Bool.false_eq_true, if_false]
      exact h

/-- The lane bound survives a map deletion of one pending slot. -/
theorem qinv_mdel_queues {st : ServerState} (cid : Nat) (h : QInv st) :
    QInv { st with messageQueues := mdel st.messageQueues cid } := by
  intro p hp
  exact h p (mem_mdel hp)

/-- The lane bound ignores the `clients` field. -/
theorem qinv_clients_update {st2 : ServerState} (v : List (Nat × Client))
    (h : QInv st2) : QInv { st2 with clients := v } := h

/-- The lane bound ignores the `activeChats` and `userQueue` fields. -/
theorem qinv_chats_queue_update {st2 : ServerState} (v : List (Nat × Nat))
    (w : List Nat) (h : QInv st2) :
    QInv { st2 with activeChats := v, userQueue := w } := h

/-- The lane bound ignores the `activeChats` field. -/
theorem qinv_chats_update {st2 : ServerState} (v : List (Nat × Nat))
    (h : QInv st2) : QInv { st2 with activeChats := v } := h

/-- The lane bound survives `handleDisconnect`. -/
theorem qinv_handleDisconnect {st : ServerState} (clientId : Nat)
    (h : QInv st) : QInv (handleDisconnect st clientId).1 := by
  unfold handleDisconnect
  cases hc : mget st.clients clientId with
  | none => exact h
  | some client =>
    dsimp only
    have h1 : QInv { st with messageQueues := mdel st.messageQueues clientId } :=
      qinv_mdel_queues clientId h
    refine qinv_clients_update _ ?_
    split
    · refine qinv_foldl _ ?_ _ _ ?_
      · intro p e hq
        dsimp only
        split
        · exact qinv_send _ _ hq
        · exact hq
      · refine qinv_chats_queue_update _ _ ?_
        refine qinv_foldl _ ?_ _ _ ?_
        · intro p e hq
          dsimp only
          split
          · exact qinv_send _ _ (qinv_send _ _ hq)
          · exact hq
        · exact h1
    · refine qinv_updateUserList ?_
      split
      · refine qinv_send _ _ ?_
        refine qinv_chats_update _ ?_
        split
        · exact qinv_updateQueue h1
        · exact h1
      · split
        · exact qinv_updateQueue h1
        · exact h1

/-- The lane bound survives every broker event. -/
theorem qinv_execOp {st : ServerState} (op : Op) (h : QInv st) :
    QInv (execOp st op).1 := by
  cases op with
  | join newId username userType => exact qinv_handleJoin newId username userType h
  | selectUser senderId userId => exact qinv_handleSelectUser senderId userId h
  | message senderId toId text timestamp =>
      exact qinv_handleChatMessage senderId toId text timestamp h
  | endChat senderId dataUserId => exact qinv_handleEndChat senderId dataUserId h
  | startVideo senderId userId => exact qinv_handleStartVideoStream senderId userId h
  | stopVideo senderId userId => exact qinv_handleStopVideoStream senderId userId h
  | videoFrame senderId toId frame => exact qinv_handleVideoFrame senderId toId frame h
  | disconnect clientId => exact qinv_handleDisconnect clientId h
  | tick => exact qinv_tick h

/-- The lane bound survives any event sequence. -/
theorem qinv_execOps {st : ServerState} (ops : List Op) (h : QInv st) :
    QInv (execOps st ops).1 := by
  unfold execOps
  exact qinv_foldl
    (fun p op => let r := execOp p.1 op; (r.1, p.2 ++ r.2))
    (fun p op hq => qinv_execOp op hq) _ (st, []) h

/-- The executable lane check agrees with the lane bound. -/
theorem lowPriorityLaneBounded_iff (st : ServerState) :
    lowPriorityLaneBounded st = true ↔ QInv st := by
  simp [lowPriorityLaneBounded, QInv, List.all_eq_true]

/-- C2: in every state reachable by any event sequence from startup,
each connection's low-priority pending queue holds at most one item,
and in the concrete F1-then-F2 scenario the two enqueues touch the
transport not at all, leave only F2 pending, and the next tick
delivers exactly F2 (one message for the connection). -/
theorem low_priority_lane_latest_wins :
    (∀ ops : List Op, lowPriorityLaneBounded (execOps initState ops).1 = true) ∧
    (sendToClient c2State 10 c2Frame1).2 = [] ∧
    (sendToClient (sendToClient c2State 10 c2Frame1).1 10 c2Frame2).2 = [] ∧
    mget (sendToClient (sendToClient c2State 10 c2Frame1).1 10
      c2Frame2).1.messageQueues 10 = some [c2Frame2] ∧
    (processMessageQueues (sendToClient (sendToClient c2State 10 c2Frame1).1 10
      c2Frame2).1).2 = [Eff.send 10 c2Frame2] := by
  refine ⟨fun ops => ?_, by decide, by decide, by decide, by decide⟩
  refine (lowPriorityLaneBounded_iff _).mpr (qinv_execOps ops ?_)
  intro p hp
  simp [initState] at hp

/-- Witness for C2: the lane check evaluates to true after a concrete
run that joins two clients and relays one frame. -/
theorem low_priority_lane_latest_wins_witness :
    lowPriorityLaneBounded (execOps initState c2WOps).1 = true :=
  low_priority_lane_latest_wins.1 c2WOps

/-- A fold of queue-position sends leaves the slots of uninvolved
connections untouched. -/
theorem updateQueue_fold_other :
    ∀ (l : List (Nat × Nat)) (st : ServerState) (acc : List Eff) (u : Nat),
      u ∉ l.map Prod.snd →
      mget ((l.foldl (fun (p : ServerState × List Eff) (e : Nat × Nat) =>
        let r := sendToClient p.1 e.2 (Msg.queuePosition (e.1 + 1))
        (r.1, p.2 ++ r.2)) (st, acc)).1).messageQueues u = mget st.messageQueues u := by
  intro l
  induction l with
  | nil => intro st acc u _; rfl
  | cons hd t ih =>
    intro st acc u hu
    have hne : u ≠ hd.2 := by
      intro hh
      exact hu (by simp [hh])
    have hu2 : u ∉ t.map Prod.snd := by
      intro hh
      exact hu (by simp [hh])
    rw [List.foldl_cons]
    exact (ih _ _ u hu2).trans (sendToClient_queues_ne st hd.2 _ hne)

/-- The bounded length of the pending slot named by a lookup. -/
theorem qinv_slot_len {st : ServerState} (h : QInv st) (u : Nat) :
    ((mget st.messageQueues u).getD []).length ≤ 1 := by
  cases hq0 : mget st.messageQueues u with
  | none => simp
  | some q0 => simpa using h (u, q0) (mget_mem hq0)

/-- After folding queue-position sends over a duplicate-free list of
open registered users, each of them has exactly its renumbering
message pending. -/
theorem updateQueue_fold_slot :
    ∀ (l : List (Nat × Nat)) (st : ServerState) (acc : List Eff),
      QInv st →
      (∀ e ∈ l, ∃ c, mget st.clients e.2 = some c ∧ c.wsOpen = true) →
      (l.map Prod.snd).Nodup →
      ∀ e ∈ l,
        mget ((l.foldl (fun (p : ServerState × List Eff) (e : Nat × Nat) =>
          let r := sendToClient p.1 e.2 (Msg.queuePosition (e.1 + 1))
          (r.1, p.2 ++ r.2)) (st, acc)).1).messageQueues e.2 =
        some [Msg.queuePosition (e.1 + 1)] := by
  intro l
  induction l with
  | nil => intro st acc _ _ _ e he; simp at he
  | cons hd t ih =>
    intro st acc hQ hreg hnd e he
    obtain ⟨c, hc, hw⟩ := hreg hd (by simp)
    have hslot : mget (sendToClient st hd.2 (Msg.queuePosition (hd.1 + 1))).1.messageQueues hd.2 =
        some [Msg.queuePosition (hd.1 + 1)] :=
      sendToClient_slot hc hw rfl (qinv_slot_len hQ hd.2)
    have hQ1 : QInv (sendToClient st hd.2 (Msg.queuePosition (hd.1 + 1))).1 :=
      qinv_send _ _ hQ
    have hcl : (sendToClient st hd.2 (Msg.queuePosition (hd.1 + 1))).1.clients = st.clients :=
      sendToClient_clients _ _ _
    have hndt : (t.map Prod.snd).Nodup := (List.nodup_cons.mp (by simpa using hnd)).2
    have hhd : hd.2 ∉ t.map Prod.snd := (List.nodup_cons.mp (by simpa using hnd)).1
    rw [List.foldl_cons]
    rcases List.mem_cons.mp he with he | he
    · subst he
      exact (updateQueue_fold_other t _ _ e.2 hhd).trans hslot
    · refine ih _ _ hQ1 ?_ hndt e he
      intro e2 he2
      rw [hcl]
      exact hreg e2 (List.mem_cons_of_mem _ he2)

/-- C5: after any renumbering (`updateQueue` runs after every enqueue,
dequeue and removal), the positions pushed to the queued participants
are exactly the contiguous 1-based indices: the participant at index i
has exactly `queuePosition (i+1)` pending. -/
theorem updateQueue_reports_contiguous_positions (st : ServerState)
    (hQ : QInv st) (hnd : st.userQueue.Nodup)
    (hreg : ∀ u ∈ st.userQueue, ∃ c, mget st.clients u = some c ∧ c.wsOpen = true) :
    ∀ e ∈ st.userQueue.enum,
      mget (updateQueue st).1.messageQueues e.2 =
        some [Msg.queuePosition (e.1 + 1)] := by
  intro e he
  have hmap : st.userQueue.enum.map Prod.snd = st.userQueue := List.enum_map_snd _
  unfold updateQueue
  refine updateQueue_fold_slot st.userQueue.enum st [] hQ ?_ ?_ e he
  · intro e2 he2
    exact hreg e2.2 (by rw [← hmap]; exact List.mem_map_of_mem _ he2)
  · rw [hmap]; exact hnd

/-- Witness for C5: queue [20, 21]; after `updateQueue`, user 20 has
exactly position 1 pending (its stale message replaced) and user 21
exactly position 2. -/
theorem updateQueue_reports_contiguous_positions_witness :
    mget (updateQueue c5WState).1.messageQueues 20 = some [Msg.queuePosition 1] ∧
    mget (updateQueue c5WState).1.messageQueues 21 = some [Msg.queuePosition 2] := by
  have h1 := updateQueue_reports_contiguous_positions c5WState
    ((lowPriorityLaneBounded_iff c5WState).mp (by decide)) (by decide)
    (by
      intro u hu
      have hu2 : u = 20 ∨ u = 21 := by simpa [c5WState] using hu
      rcases hu2 with rfl | rfl
      · exact ⟨_, rfl, rfl⟩
      · exact ⟨_, rfl, rfl⟩)
  exact ⟨h1 (0, 20) (by decide), h1 (1, 21) (by decide)⟩

/-- A key outside the key list is not found. -/
theorem mget_eq_none_of_not_mem_keys {α β : Type} [DecidableEq α]
    {m : List (α × β)} {k : α} (h : k ∉ m.map Prod.fst) : mget m k = none := by
  induction m with
  | nil => rfl
  | cons e t ih =>
    obtain ⟨k1, v1⟩ := e
    have hne : ¬ k1 = k := by
      intro hh
      exact h (by simp [hh])
    have ht : k ∉ t.map Prod.fst := by
      intro hh
      exact h (by simp [hh])
    simp [mget, hne, ih ht]

/-- The keys of `mset m k v` are the keys of `m`, possibly plus `k`. -/
theorem keys_mset_mem {α β : Type} [DecidableEq α] {m : List (α × β)}
    {k u : α} {v : β} (h : u ∈ (mset m k v).map Prod.fst) :
    u ∈ m.map Prod.fst ∨ u = k := by
  induction m with
  | nil => simp [mset] at h; exact Or.inr h
  | cons e t ih =>
    obtain ⟨k1, v1⟩ := e
    by_cases hk : k1 = k
    · subst hk
      simp [mset] at h
      rcases h with h | h
      · exact Or.inr h
      · exact Or.inl (by simp [h])
    · simp [mset, hk] at h
      rcases h with h | h
      · exact Or.inl (by simp [h])
      · rcases ih (by simpa using h) with h1 | h1
        · exact Or.inl (by simp; exact Or.inr (by simpa using h1))
        · exact Or.inr h1

/-- `mset` preserves duplicate-freedom of the keys. -/
theorem keys_mset_nodup {α β : Type} [DecidableEq α] {m : List (α × β)}
    (k : α) (v : β) (h : (m.map Prod.fst).Nodup) :
    ((mset m k v).map Prod.fst).Nodup := by
  induction m with
  | nil => simp [mset]
  | cons e t ih =>
    obtain ⟨k1, v1⟩ := e
    rw [List.map_cons, List.nodup_cons] at h
    by_cases hk : k1 = k
    · subst hk
      simp only [mset]
      rw [if_pos trivial, List.map_cons, List.nodup_cons]
      exact ⟨h.1, h.2⟩
    · simp only [mset]
      rw [if_neg hk, List.map_cons, List.nodup_cons]
      refine ⟨?_, ih h.2⟩
      intro hmem
      rcases keys_mset_mem hmem with h1 | h1
      · exact h.1 h1
      · exact hk h1

/-- Deleting a key from a duplicate-free map really removes it. -/
theorem mget_mdel_self {α β : Type} [DecidableEq α] {m : List (α × β)}
    (k : α) (h : (m.map Prod.fst).Nodup) : mget (mdel m k) k = none := by
  induction m with
  | nil => rfl
  | cons e t ih =>
    obtain ⟨k1, v1⟩ := e
    rw [List.map_cons, List.nodup_cons] at h
    by_cases hk : k1 = k
    · subst hk
      simp only [mdel]
      rw [if_pos trivial]
      exact mget_eq_none_of_not_mem_keys h.1
    · simp only [mdel]
      rw [if_neg hk]
      simp only [mget]
      rw [if_neg hk]
      exact ih h.2

/-- A fold whose steps leave the registry alone leaves it alone. -/
theorem clients_foldl {α : Type}
    (f : ServerState × List Eff → α → ServerState × List Eff)
    (hf : ∀ p a, (f p a).1.clients = p.1.clients) :
    ∀ (l : List α) (p : ServerState × List Eff),
      ((l.foldl f p).1).clients = p.1.clients := by
  intro l
  induction l with
  | nil => intro p; rfl
  | cons a t ih => intro p; exact (ih (f p a)).trans (hf p a)

/-- `updateQueue` never touches the client registry. -/
theorem updateQueue_clients (st : ServerState) :
    (updateQueue st).1.clients = st.clients := by
  unfold updateQueue
  exact clients_foldl
    (fun (p : ServerState × List Eff) (e : Nat × Nat) =>
      let r := sendToClient p.1 e.2 (Msg.queuePosition (e.1 + 1))
      (r.1, p.2 ++ r.2))
    (fun p e => sendToClient_clients p.1 e.2 (Msg.queuePosition (e.1 + 1)))
    _ (st, [])

/-- `updateUserList` never touches the client registry. -/
theorem updateUserList_clients (st : ServerState) :
    (updateUserList st).1.clients = st.clients := by
  unfold updateUserList
  cases st.adminClient with
  | none => rfl
  | some a => exact sendToClient_clients _ _ _

/-- `handleDisconnect` removes exactly the named registry entry. -/
theorem handleDisconnect_clients (st : ServerState) (clientId : Nat) :
    (handleDisconnect st clientId).1.clients =
      match mget st.clients clientId with
      | none => st.clients
      | some _ => mdel st.clients clientId := by
  unfold handleDisconnect
  cases hc : mget st.clients clientId with
  | none => rfl
  | some client =>
    dsimp only
    congr 1
    split
    · rw [clients_foldl _ (fun p e => by
        split
        · exact sendToClient_clients _ _ _
        · rfl)]
      dsimp only
      rw [clients_foldl _ (fun p e => by
        split
        · exact (sendToClient_clients _ _ _).trans (sendToClient_clients _ _ _)
        · rfl)]
    · rw [updateUserList_clients]
      split
      · rw [sendToClient_clients]
        dsimp only
        split
        · rw [updateQueue_clients]
        · rfl
      · split
        · rw [updateQueue_clients]
        · rfl

/-- C9: a second admin join is first registered and welcomed, and only
afterwards told the role conflict and closed; until the close event
fires and `handleDisconnect` removes it, the registry holds both the
old and the new entry with type admin. -/
theorem second_admin_join_registered_before_close (st : ServerState)
    (a : Client) (newId : Nat) (name : String)
    (h : st.adminClient = some a) (ha : mget st.clients a.id = some a)
    (hat : a.type = "admin") (hne : newId ≠ a.id)
    (hnd : (st.clients.map Prod.fst).Nodup) :
    (handleJoin st newId name "admin").2 =
      [Eff.send newId (Msg.welcome newId),
       Eff.send newId (Msg.errMsg "An admin is already connected"),
       Eff.close newId] ∧
    mget (handleJoin st newId name "admin").1.clients newId =
      some { id := newId, username := name, type := "admin", wsOpen := false } ∧
    mget (handleJoin st newId name "admin").1.clients a.id = some a ∧
    mget (handleDisconnect (handleJoin st newId name "admin").1 newId).1.clients
      newId = none := by
  have hcl : (handleJoin st newId name "admin").1.clients =
      mset (mset st.clients newId
          { id := newId, username := name, type := "admin", wsOpen := true })
        newId { id := newId, username := name, type := "admin", wsOpen := false } := by
    simp [handleJoin, h]
  refine ⟨?_, ?_, ?_, ?_⟩
  · simp [handleJoin, h]
  · rw [hcl, mget_mset_self]
  · rw [hcl, mget_mset_ne _ _ (Ne.symm hne), mget_mset_ne _ _ (Ne.symm hne)]
    exact ha
  · rw [handleDisconnect_clients]
    have hnd2 : ((handleJoin st newId name "admin").1.clients.map Prod.fst).Nodup := by
      rw [hcl]
      exact keys_mset_nodup _ _ (keys_mset_nodup _ _ hnd)
    cases hg : mget (handleJoin st newId name "admin").1.clients newId with
    | none => exact hg
    | some c => exact mget_mdel_self _ hnd2

/-- Witness for C9 with the concrete one-admin state. -/
theorem second_admin_join_registered_before_close_witness :
    (handleJoin c9WState 5 "eve" "admin").2 =
      [Eff.send 5 (Msg.welcome 5),
       Eff.send 5 (Msg.errMsg "An admin is already connected"),
       Eff.close 5] ∧
    mget (handleJoin c9WState 5 "eve" "admin").1.clients 5 =
      some { id := 5, username := "eve", type := "admin", wsOpen := false } ∧
    mget (handleJoin c9WState 5 "eve" "admin").1.clients c9WAdmin.id =
      some c9WAdmin ∧
    mget (handleDisconnect (handleJoin c9WState 5 "eve" "admin").1 5).1.clients
      5 = none :=
  second_admin_join_registered_before_close c9WState c9WAdmin 5 "eve"
    (by decide) (by decide) (by decide) (by decide) (by decide)

/-- C10: a low-priority send to a connection that is unregistered or
whose transport is not open changes nothing (no transport write, no
buffering), and a tick never delivers anything to such a connection,
so no stale frame for it can ever be flushed. -/
theorem dead_transport_low_priority_send_noop (st : ServerState) (cid : Nat)
    (m : Msg)
    (h : mget st.clients cid = none ∨
      ∃ c, mget st.clients cid = some c ∧ c.wsOpen = false)
    (hp : m.priority = false) :
    sendToClient st cid m = (st, []) ∧
    (processMessageQueues st).2.all (fun e => !(sendsTo cid e)) = true := by
  constructor
  · unfold sendToClient
    rcases h with h | ⟨c, hc, hw⟩
    · rw [h]
    · rw [hc]
      simp [hw]
  · rw [List.all_eq_true]
    intro e he
    unfold processMessageQueues at he
    dsimp only at he
    rcases List.mem_flatten.mp he with ⟨le, hle, hein⟩
    rcases List.mem_map.mp hle with ⟨ent, hent, rfl⟩
    unfold tickEntry at hein
    cases hg : mget st.clients ent.1 with
    | none => rw [hg] at hein; simp at hein
    | some c2 =>
      rw [hg] at hein
      by_cases hw2 : c2.wsOpen
      · simp only [hw2, if_true] at hein
        cases hq : ent.2 with
        | nil => rw [hq] at hein; simp at hein
        | cons m2 rest =>
          rw [hq] at hein
          simp at hein
          subst hein
          simp only [sendsTo]
          have hne : ent.1 ≠ cid := by
            intro hh
            rw [hh] at hg
            rcases h with h | ⟨c3, hc3, hw3⟩
            · rw [h] at hg; exact Option.noConfusion hg
            · rw [hc3] at hg
              injection hg with hg2
              rw [hg2] at hw3
              rw [hw3] at hw2
              exact Bool.noConfusion hw2
          simp [hne]
      · simp [hw2] at hein

/-- Witness for C10: client 2 is registered but closed and holds a
stale frame; the late frame send is a no-op and the tick delivers
nothing to client 2. -/
theorem dead_transport_low_priority_send_noop_witness :
    sendToClient c10WState 2 c10WMsg = (c10WState, []) ∧
    (processMessageQueues c10WState).2.all (fun e => !(sendsTo 2 e)) = true :=
  dead_transport_low_priority_send_noop c10WState 2 c10WMsg
    (Or.inr ⟨{ id := 2, username := "dan", type := "user", wsOpen := false },
      rfl, rfl⟩) rfl

end Broker
